import Mathlib

/-!
Verification development for the pokitdok-nodejs client library
(src/index.js).  The file embeds the authenticated request pipeline —
the `PokitDok` session constructor, `PokitDok.prototype.apiRequest`,
and the private `refreshAccessToken` single-flight token refresh —
as executable Lean definitions, together with a deterministic
event-driven machine modelling the asynchronous completion callbacks
of the `request` transport, and proves the pipeline's documented
properties against those definitions.
-/

namespace PokitDokSpec

/-- A JavaScript runtime value, restricted to the shapes the pipeline
actually manipulates: `null`, `undefined`, booleans, integer numbers,
strings, arrays, and plain objects with string keys. -/
inductive JsValue where
  | vNull
  | vUndefined
  | vBool (b : Bool)
  | vNum (n : Int)
  | vStr (s : String)
  | vArr (elems : List JsValue)
  | vObj (fields : List (String × JsValue))

open JsValue

/-- A runtime exception of the embedded JavaScript fragment.  In node,
an uncaught exception of either kind terminates the process. -/
inductive JsError where
  | typeError
  | syntaxError

/-- JavaScript truthiness, as used by `!options.json`, `!body.meta`
and the `if` conditions of the source. -/
def truthy : JsValue → Bool
  | vNull => false
  | vUndefined => false
  | vBool b => b
  | vNum n => n != 0
  | vStr s => s != ""
  | vArr _ => true
  | vObj _ => true

/-- Association-list lookup for object fields. -/
def lookupField : List (String × JsValue) → String → Option JsValue
  | [], _ => none
  | (k, v) :: rest, key => if k = key then some v else lookupField rest key

/-- JavaScript property access `v.key`: reading a property of `null` or
`undefined` throws a TypeError; reading a missing property of an object
or a property of a primitive yields `undefined`. -/
def getProp : JsValue → String → Except JsError JsValue
  | vNull, _ => Except.error JsError.typeError
  | vUndefined, _ => Except.error JsError.typeError
  | vObj fields, key =>
      match lookupField fields key with
      | some v => Except.ok v
      | none => Except.ok vUndefined
  | _, _ => Except.ok vUndefined

mutual
/-- JavaScript string coercion `String(v)`, as performed by the `+`
operator in `'Bearer ' + self.accessToken` and by `JSON.parse` on a
non-string argument. -/
def jsToString : JsValue → String
  | vNull => "null"
  | vUndefined => "undefined"
  | vBool true => "true"
  | vBool false => "false"
  | vNum n => toString n
  | vStr s => s
  | vArr xs => jsListToString xs
  | vObj _ => "[object Object]"
termination_by structural v => v

/-- JavaScript `Array.prototype.toString`: elements joined by commas, with `null`
and `undefined` elements rendered as the empty string. -/
def jsListToString : List JsValue → String
  | [] => ""
  | [vNull] => ""
  | [vUndefined] => ""
  | [x] => jsToString x
  | vNull :: xs => "," ++ jsListToString xs
  | vUndefined :: xs => "," ++ jsListToString xs
  | x :: xs => jsToString x ++ "," ++ jsListToString xs
termination_by structural l => l
end

/-- The opening-brace character (written via its code point so that the
file contains no literal brace in code). -/
def lbrace : Char := Char.ofNat 123

/-- The closing-brace character. -/
def rbrace : Char := Char.ofNat 125

/-- The double-quote character. -/
def quoteChar : Char := Char.ofNat 34

/-- Skip JSON whitespace. -/
def skipWs : List Char → List Char
  | c :: cs =>
      if c = ' ' ∨ c = '\t' ∨ c = '\n' ∨ c = '\r' then skipWs cs else c :: cs
  | [] => []

/-- Parse the remainder of a JSON string literal after its opening
quote, up to the closing quote.  The model covers strings without
escape sequences; none of the payloads this development evaluates
contain any. -/
def parseStringBody : List Char → Option (String × List Char)
  | [] => none
  | c :: cs =>
      if c = quoteChar then some ("", cs)
      else
        match parseStringBody cs with
        | some (s, rest) => some (String.mk (c :: s.data), rest)
        | none => none

/-- Split a leading run of decimal digits from the input. -/
def takeDigits : List Char → List Char × List Char
  | [] => ([], [])
  | c :: cs =>
      if c.isDigit then
        match takeDigits cs with
        | (ds, rest) => (c :: ds, rest)
      else ([], c :: cs)

/-- Numeric value of a digit run. -/
def digitsVal (l : List Char) : Nat :=
  List.foldl (fun a c => a * 10 + (c.toNat - 48)) 0 l

/-- Parse a JSON integer numeral (the model covers integer numerals,
which is all the pipeline's payloads use). -/
def parseNumber (cs : List Char) : Option (JsValue × List Char) :=
  match cs with
  | '-' :: rest =>
      match takeDigits rest with
      | ([], _) => none
      | (ds, r) => some (vNum (-(digitsVal ds : Int)), r)
  | _ =>
      match takeDigits cs with
      | ([], _) => none
      | (ds, r) => some (vNum (digitsVal ds), r)

/-- Match an expected literal character sequence. -/
def expectChars : List Char → List Char → Option (List Char)
  | [], cs => some cs
  | _ :: _, [] => none
  | p :: ps, c :: cs => if c = p then expectChars ps cs else none

mutual
/-- Recursive-descent JSON value parser, structurally recursive on a
fuel argument so that concrete parses reduce definitionally. -/
def parseValue : Nat → List Char → Option (JsValue × List Char)
  | 0, _ => none
  | fuel + 1, cs =>
      match skipWs cs with
      | [] => none
      | c :: rest =>
          if c = quoteChar then
            match parseStringBody rest with
            | some (s, r) => some (vStr s, r)
            | none => none
          else if c = lbrace then
            match skipWs rest with
            | [] => none
            | d :: r2 =>
                if d = rbrace then some (vObj [], r2)
                else
                  match parseMembers fuel rest with
                  | some (fields, r3) => some (vObj fields, r3)
                  | none => none
          else if c = '[' then
            match skipWs rest with
            | [] => none
            | d :: _ =>
                if d = ']' then
                  match skipWs rest with
                  | _ :: r2 => some (vArr [], r2)
                  | [] => none
                else
                  match parseElements fuel rest with
                  | some (elems, r3) => some (vArr elems, r3)
                  | none => none
          else if c = 't' then
            match expectChars ['r', 'u', 'e'] rest with
            | some r => some (vBool true, r)
            | none => none
          else if c = 'f' then
            match expectChars ['a', 'l', 's', 'e'] rest with
            | some r => some (vBool false, r)
            | none => none
          else if c = 'n' then
            match expectChars ['u', 'l', 'l'] rest with
            | some r => some (vNull, r)
            | none => none
          else if c = '-' ∨ c.isDigit then parseNumber (c :: rest)
          else none
termination_by structural fuel => fuel

/-- Parse one or more `"key": value` members followed by the closing
brace of a JSON object. -/
def parseMembers : Nat → List Char → Option (List (String × JsValue) × List Char)
  | 0, _ => none
  | fuel + 1, cs =>
      match skipWs cs with
      | [] => none
      | c :: rest =>
          if c = quoteChar then
            match parseStringBody rest with
            | some (key, r1) =>
                match skipWs r1 with
                | ':' :: r2 =>
                    match parseValue fuel r2 with
                    | some (v, r3) =>
                        match skipWs r3 with
                        | ',' :: r4 =>
                            match parseMembers fuel r4 with
                            | some (fields, r5) => some ((key, v) :: fields, r5)
                            | none => none
                        | d :: r4 =>
                            if d = rbrace then some ([(key, v)], r4) else none
                        | [] => none
                    | none => none
                | _ => none
            | none => none
          else none
termination_by structural fuel => fuel

/-- Parse one or more JSON array elements followed by the closing
bracket. -/
def parseElements : Nat → List Char → Option (List JsValue × List Char)
  | 0, _ => none
  | fuel + 1, cs =>
      match parseValue fuel cs with
      | some (v, r1) =>
          match skipWs r1 with
          | ',' :: r2 =>
              match parseElements fuel r2 with
              | some (elems, r3) => some (v :: elems, r3)
              | none => none
          | ']' :: r2 => some ([v], r2)
          | _ => none
      | none => none
termination_by structural fuel => fuel
end

/-- Model of `JSON.parse` on a string: parse a single JSON value surrounded by
optional whitespace; `none` models a thrown SyntaxError. -/
def jsonParse (s : String) : Option JsValue :=
  match parseValue (s.length + 1) s.data with
  | some (v, rest) =>
      match skipWs rest with
      | [] => some v
      | _ :: _ => none
  | none => none

/-- Model of `JSON.parse` on an arbitrary value: the argument is first coerced
to a string (so a plain object argument yields the unparsable string
`[object Object]`). -/
def jsJSONParse (v : JsValue) : Option JsValue :=
  jsonParse (jsToString v)

/-- The module global `userAgent` of src/index.js. -/
def userAgent : String := "pokitdok-nodejs@0.0.1"

/-- The module global `baseUrl` of src/index.js. -/
def baseUrl : String := "https://platform.pokitdok.com"

/-- The `options` object handed to `apiRequest`: the caller-supplied
`path`, `method`, `qs` and `json` keys, together with the `url` and
header fields that `apiRequest` itself assigns before handing the
object to the transport.  Callbacks are modelled as identifiers. -/
structure Options where
  path : String
  httpMethod : String
  qs : JsValue
  json : JsValue
  url : String
  authorizationHeader : String
  userAgentHeader : String

/-- The connection object built by the `PokitDok` constructor: the
credential fields plus the mutable pipeline state `refreshActive`,
`retryQueue` and `accessToken`. -/
structure Session where
  clientId : String
  clientSecret : String
  version : String
  refreshActive : Bool
  retryQueue : List (Options × Nat)
  accessToken : JsValue

/-- The `res` object a successful transport completion delivers.  The
`request` library passes `res.body` itself as the handler's `body`
argument, so the two always start out identical. -/
structure HttpResponse where
  statusCode : Nat
  body : JsValue

/-- A transport completion: either a transport-level failure (in which
case `res` and `body` are `undefined`) or a response. -/
inductive Completion where
  | failure (err : JsValue)
  | success (res : HttpResponse)

/-- An argument passed to a caller's completion callback: either a
plain value or the whole `res` object. -/
inductive CbArg where
  | val (v : JsValue)
  | response (r : HttpResponse)

/-- An outbound HTTP call the pipeline has issued and whose completion
handler has not yet run: either an API request made by `apiRequest`
(carrying the augmented options and the caller's callback) or the
token-endpoint POST made by `refreshAccessToken` (carrying the
callback of the request that triggered the refresh). -/
inductive Call where
  | api (options : Options) (cb : Nat)
  | refresh (cb : Nat)

/-- The effect of running one completion handler: the session state it
leaves behind, the outbound calls it issued, and the callback
invocations it performed, in order.  Each invocation records the
callback identifier and its two arguments. -/
structure HandlerResult where
  session : Session
  newCalls : List Call
  invocations : List (Nat × CbArg × CbArg)

/-- The `PokitDok` constructor (src/index.js lines 72-79): stores the
credentials, defaults the version to `v4` when the argument is absent
or falsy, and initialises `refreshActive = false`, `retryQueue = []`
and `accessToken = null`. -/
def PokitDok (clientId clientSecret : String) (version : Option String) : Session :=
  { clientId := clientId
    clientSecret := clientSecret
    version :=
      match version with
      | some v => if v = "" then "v4" else v
      | none => "v4"
    refreshActive := false
    retryQueue := []
    accessToken := vNull }

/-- The synchronous part of `PokitDok.prototype.apiRequest`
(src/index.js lines 110-118): build the absolute URL from the base
URL, version and path, and set the `Authorization: Bearer ` +
`self.accessToken` and `User-Agent` headers on the options object.
The transport call it then issues is modelled by the machine below. -/
def apiRequest (self : Session) (options : Options) : Options :=
  { options with
      url := baseUrl ++ "/api/" ++ self.version ++ options.path
      authorizationHeader := "Bearer " ++ jsToString self.accessToken
      userAgentHeader := userAgent }

/-- The function `refreshAccessToken` (src/index.js lines 13-22), the synchronous
part: push `(options, callback)` onto `retryQueue`; if `refreshActive`
is already true, return without doing anything else; otherwise set
`refreshActive = true` and issue the token-endpoint POST (represented
by a `Call.refresh` carrying the triggering callback, which the
completion handler closure captures). -/
def refreshAccessToken (context : Session) (options : Options) (callback : Nat) :
    Session × List Call :=
  let context1 :=
    { context with retryQueue := context.retryQueue ++ [(options, callback)] }
  if context1.refreshActive then (context1, [])
  else ({ context1 with refreshActive := true }, [Call.refresh callback])

/-- The body-reparse prologue of the `apiRequest` response handler
(src/index.js lines 121-124): when `options.json` is falsy, the body
is a string, and `body.indexOf` of the opening brace is 0, both the
local `body` and `res.body` are reassigned to `JSON.parse(body)`.
This parse is not guarded by try/catch, so its failure is an uncaught
SyntaxError. -/
def isStringVal : JsValue → Bool
  | vStr _ => true
  | _ => false

/-- The test `body.indexOf` of the opening brace `=== 0`, i.e. the string
begins with an opening brace. -/
def startsWithBrace : JsValue → Bool
  | vStr s =>
      match s.data with
      | c :: _ => c = lbrace
      | [] => false
  | _ => false

/-- See the comment on `isStringVal`: the guarded reparse itself. -/
def preparse (options : Options) (res : HttpResponse) : Except JsError HttpResponse :=
  if !truthy options.json && isStringVal res.body && startsWithBrace res.body then
    match jsJSONParse res.body with
    | some parsed => Except.ok { res with body := parsed }
    | none => Except.error JsError.syntaxError
  else Except.ok res

/-- The auth-failure test of the handler (src/index.js line 126):
`res.statusCode == 401 || (res.statusCode == 400 && !body.meta)`,
with JavaScript short-circuit order, so `body.meta` (which throws on a
`null`/`undefined` body) is only evaluated for a 400. -/
def classifyAuthFailure (res : HttpResponse) : Except JsError Bool :=
  if res.statusCode == 401 then Except.ok true
  else if res.statusCode == 400 then do
    let metaVal ← getProp res.body "meta"
    pure (!truthy metaVal)
  else Except.ok false

/-- The completion handler of `apiRequest`'s transport call
(src/index.js lines 119-141).  On a transport-level failure `res` is
`undefined`; the handler never tests `err`, so `res.statusCode`
throws a TypeError.  On a response: run the reparse prologue, then the
auth-failure test (entering `refreshAccessToken` when it holds), then
surface any other non-200 as `callback(res.body, res)`, and on a 200
parse the body inside try/catch (falling back to the raw body) and
invoke `callback(null, data)`. -/
def apiRequestHandler (self : Session) (options : Options) (callback : Nat) :
    Completion → Except JsError HandlerResult
  | Completion.failure _err => Except.error JsError.typeError
  | Completion.success res0 =>
      match preparse options res0 with
      | Except.error e => Except.error e
      | Except.ok res =>
          match classifyAuthFailure res with
          | Except.error e => Except.error e
          | Except.ok isAuth =>
              if isAuth then
                Except.ok { session := (refreshAccessToken self options callback).1
                            newCalls := (refreshAccessToken self options callback).2
                            invocations := [] }
              else if res.statusCode ≠ 200 then
                Except.ok { session := self, newCalls := []
                            invocations := [(callback, CbArg.val res.body, CbArg.response res)] }
              else
                Except.ok { session := self, newCalls := []
                            invocations := [(callback, CbArg.val vNull,
                              CbArg.val (match jsJSONParse res.body with
                                | some parsed => parsed
                                | none => res.body))] }

/-- The `while (0 < context.retryQueue.length)` replay loop of the
refresh handler (src/index.js lines 44-47): repeatedly `pop()` the
most recently queued entry off the end of `retryQueue` and re-dispatch
it through `context.apiRequest`, issuing one transport call per entry.
The fuel argument (instantiated with the queue length) makes the
recursion structural. -/
def drainRetryQueue : Nat → Session → Session × List Call
  | 0, context => (context, [])
  | fuel + 1, context =>
      match context.retryQueue.getLast? with
      | none => (context, [])
      | some reqArgs =>
          let context1 :=
            { context with retryQueue := context.retryQueue.dropLast }
          let call := Call.api (apiRequest context1 reqArgs.1) reqArgs.2
          let rest := drainRetryQueue fuel context1
          (rest.1, call :: rest.2)

/-- The completion handler of the token-endpoint POST (src/index.js
lines 32-48).  On a transport-level failure, `refreshActive = false`
runs and then `res.statusCode` throws on the `undefined` `res`; the
uncaught exception terminates the process, so the step is modelled as
a crash.  On a response: clear `refreshActive`; on a non-200, empty
the retry queue and invoke the triggering `callback(res.body, res)`;
on a 200, `JSON.parse(body)` (uncaught on failure), store
`token.access_token` into `accessToken`, and run the replay loop. -/
def refreshAccessTokenHandler (context : Session) (callback : Nat) :
    Completion → Except JsError HandlerResult
  | Completion.failure _err => Except.error JsError.typeError
  | Completion.success res =>
      if res.statusCode ≠ 200 then
        Except.ok { session := { context with refreshActive := false, retryQueue := [] }
                    newCalls := []
                    invocations := [(callback, CbArg.val res.body, CbArg.response res)] }
      else
        match jsJSONParse res.body with
        | none => Except.error JsError.syntaxError
        | some token =>
            match getProp token "access_token" with
            | Except.error e => Except.error e
            | Except.ok accessTokenVal =>
                let context2 :=
                  { context with refreshActive := false, accessToken := accessTokenVal }
                let drained := drainRetryQueue context2.retryQueue.length context2
                Except.ok
                  { session := drained.1, newCalls := drained.2, invocations := [] }

/-- A configuration of the single-threaded event machine: the session,
the outbound calls whose completion handlers have not yet run, the
ordered log of callback invocations performed so far, a count of
token-endpoint calls issued so far (history instrumentation), and a
flag recording that an uncaught exception has terminated the
process. -/
structure Config where
  session : Session
  pending : List Call
  log : List (Nat × CbArg × CbArg)
  tokenCalls : Nat
  crashed : Bool

/-- An external event: either a caller invokes
`pokitdok.apiRequest(options, callback)`, or the network delivers the
completion of the `i`-th pending call.  Handlers run atomically
between events, matching node's single-threaded callback model. -/
inductive Event where
  | dispatch (options : Options) (callback : Nat)
  | complete (i : Nat) (comp : Completion)

/-- Number of token-endpoint calls in a call list. -/
def countRefreshCalls (calls : List Call) : Nat :=
  calls.countP fun c =>
    match c with
    | Call.refresh _ => true
    | Call.api _ _ => false

/-- Number of pending token-endpoint calls whose triggering callback
is `k`. -/
def refreshCountFor (calls : List Call) (k : Nat) : Nat :=
  calls.countP fun c =>
    match c with
    | Call.refresh cb => cb == k
    | Call.api _ _ => false

/-- Number of pending API calls carrying callback `k`. -/
def pendingApiCount (calls : List Call) (k : Nat) : Nat :=
  calls.countP fun c =>
    match c with
    | Call.api _ cb => cb == k
    | Call.refresh _ => false

/-- Number of retry-queue entries carrying callback `k`. -/
def queueCount (q : List (Options × Nat)) (k : Nat) : Nat :=
  q.countP fun e => e.2 == k

/-- Number of logged invocations of callback `k`. -/
def invocationCount (log : List (Nat × CbArg × CbArg)) (k : Nat) : Nat :=
  log.countP fun e => e.1 == k

/-- Number of `dispatch` events for callback `k` in an event list. -/
def dispatchCount (events : List Event) (k : Nat) : Nat :=
  events.countP fun e =>
    match e with
    | Event.dispatch _ cb => cb == k
    | Event.complete _ _ => false

/-- One machine transition.  A crashed machine takes no further steps;
completing an out-of-range index is a no-op (the network can only
complete a call that exists).  Completions remove the completed call,
run its handler, and either apply the handler's effect or crash on an
uncaught exception. -/
def step (c : Config) (e : Event) : Config :=
  if c.crashed then c
  else
    match e with
    | Event.dispatch options callback =>
        { c with pending :=
            c.pending ++ [Call.api (apiRequest c.session options) callback] }
    | Event.complete i comp =>
        match c.pending[i]? with
        | none => c
        | some call =>
            let remaining := c.pending.eraseIdx i
            let result :=
              match call with
              | Call.api opts cb => apiRequestHandler c.session opts cb comp
              | Call.refresh cb => refreshAccessTokenHandler c.session cb comp
            match result with
            | Except.error _ => { c with pending := remaining, crashed := true }
            | Except.ok r =>
                { session := r.session
                  pending := remaining ++ r.newCalls
                  log := c.log ++ r.invocations
                  tokenCalls := c.tokenCalls + countRefreshCalls r.newCalls
                  crashed := false }

/-- Run the machine over a list of events. -/
def run (c : Config) (events : List Event) : Config :=
  List.foldl step c events

/-- The machine configuration of a freshly constructed connection. -/
def initConfig (clientId clientSecret : String) (version : Option String) : Config :=
  { session := PokitDok clientId clientSecret version
    pending := []
    log := []
    tokenCalls := 0
    crashed := false }

/-- Single-flight invariant: the number of outstanding token-endpoint
calls is one exactly while `refreshActive` is set, and zero
otherwise. -/
def SingleFlight (c : Config) : Prop :=
  countRefreshCalls c.pending = if c.session.refreshActive then 1 else 0

/-- The triggering callback of any outstanding token-endpoint call has
an entry in the retry queue. -/
def TriggerQueued (c : Config) : Prop :=
  ∀ k, 1 ≤ refreshCountFor c.pending k → 1 ≤ queueCount c.session.retryQueue k

/-- The machine invariant: every non-crashed reachable configuration
satisfies single-flight and trigger-queued. -/
def MachineInv (c : Config) : Prop :=
  c.crashed = false → SingleFlight c ∧ TriggerQueued c

/-- The at-most-once accounting measure for callback `k`: invocations
performed plus outstanding obligations (pending API calls and queue
entries) that can still lead to one. -/
def obligations (c : Config) (k : Nat) : Nat :=
  invocationCount c.log k + pendingApiCount c.pending k +
    queueCount c.session.retryQueue k

/-- Number of `dispatch` events for callback `k` contributed by a
single event. -/
def eventDispatch (e : Event) (k : Nat) : Nat :=
  match e with
  | Event.dispatch _ cb => if cb == k then 1 else 0
  | Event.complete _ _ => 0

/-- A caller-supplied options object with only `path` and `method` set,
as produced by the GET resource wrappers. -/
def sampleOptions (p : String) : Options :=
  { path := p, httpMethod := "GET", qs := vUndefined, json := vUndefined,
    url := "", authorizationHeader := "", userAgentHeader := "" }


/-- A freshly constructed connection. -/
def sampleSession : Session := PokitDok "client-id" "client-secret" none


/-- A connection with a token refresh currently in flight. -/
def sampleActiveSession : Session := { sampleSession with refreshActive := true }


/-- Three requests dispatched on a fresh connection, each answered with
a 401 before the refresh completes. -/
def c1Events : List Event :=
  [Event.dispatch (sampleOptions "/a") 1,
   Event.dispatch (sampleOptions "/b") 2,
   Event.dispatch (sampleOptions "/c") 3,
   Event.complete 0 (Completion.success { statusCode := 401, body := vStr "Unauthorized" }),
   Event.complete 0 (Completion.success { statusCode := 401, body := vStr "Unauthorized" }),
   Event.complete 0 (Completion.success { statusCode := 401, body := vStr "Unauthorized" })]


/-- The machine configuration after `c1Events`. -/
def c1Final : Config := run (initConfig "client-id" "client-secret" none) c1Events


/-- Entries A, B, C queued in that order while a refresh is in flight. -/
def c3Session : Session :=
  { sampleSession with refreshActive := true, retryQueue := [(sampleOptions "/a", 1), (sampleOptions "/b", 2), (sampleOptions "/c", 3)] }


/-- A 200 token-endpoint response carrying an access token. -/
def c3Res : HttpResponse :=
  { statusCode := 200, body := vStr "\x7b\"access_token\":\"tok\"\x7d" }


/-- An options object whose `json` key is set, as built by the POST
resource wrappers: the transport then delivers an already-parsed
object body. -/
def c10Options : Options :=
  { path := "/claims/", httpMethod := "POST", qs := vUndefined,
    json := vObj [("transaction_code", vStr "chargeable")],
    url := "", authorizationHeader := "", userAgentHeader := "" }


theorem getElem?_split {α : Type} :
    ∀ (p : List α) (i : Nat) (a : α), p[i]? = some a →
      ∃ l1 l2, p = l1 ++ a :: l2 ∧ p.eraseIdx i = l1 ++ l2
  | [], i, a, h => by simp at h
  | x :: xs, 0, a, h => by
      simp only [List.getElem?_cons_zero, Option.some.injEq] at h
      exact ⟨[], xs, by simp [h], by simp [List.eraseIdx]⟩
  | x :: xs, i + 1, a, h => by
      simp only [List.getElem?_cons_succ] at h
      obtain ⟨l1, l2, h1, h2⟩ := getElem?_split xs i a h
      exact ⟨x :: l1, l2, by simp [h1], by simp [List.eraseIdx, h2]⟩

theorem getLast?_decomp {α : Type} :
    ∀ (l : List α) (a : α), l.getLast? = some a → l = l.dropLast ++ [a]
  | [], a, h => by simp at h
  | [x], a, h => by
      simp only [List.getLast?_singleton, Option.some.injEq] at h
      simp [h]
  | x :: y :: xs, a, h => by
      have h2 : (y :: xs).getLast? = some a := by
        rw [List.getLast?_cons_cons] at h
        exact h
      have ih := getLast?_decomp (y :: xs) a h2
      calc x :: y :: xs = x :: ((y :: xs).dropLast ++ [a]) := by rw [← ih]
        _ = (x :: y :: xs).dropLast ++ [a] := by simp [List.dropLast]

@[simp]
theorem countRefreshCalls_append (a b : List Call) :
    countRefreshCalls (a ++ b) = countRefreshCalls a + countRefreshCalls b :=
  List.countP_append _ a b

@[simp]
theorem countRefreshCalls_nil : countRefreshCalls [] = 0 := rfl

@[simp]
theorem countRefreshCalls_api (o : Options) (k : Nat) :
    countRefreshCalls [Call.api o k] = 0 := rfl

@[simp]
theorem countRefreshCalls_refresh (k : Nat) :
    countRefreshCalls [Call.refresh k] = 1 := rfl

@[simp]
theorem countRefreshCalls_map_api (l : List (Options × Nat)) (f : Options × Nat → Options) :
    countRefreshCalls (l.map fun e => Call.api (f e) e.2) = 0 := by
  simp [countRefreshCalls, List.countP_map, Function.comp]

@[simp]
theorem refreshCountFor_append (a b : List Call) (k : Nat) :
    refreshCountFor (a ++ b) k = refreshCountFor a k + refreshCountFor b k :=
  List.countP_append _ a b

@[simp]
theorem refreshCountFor_nil (k : Nat) : refreshCountFor [] k = 0 := rfl

@[simp]
theorem refreshCountFor_api (o : Options) (j k : Nat) :
    refreshCountFor [Call.api o j] k = 0 := rfl

@[simp]
theorem refreshCountFor_map_api (l : List (Options × Nat)) (f : Options × Nat → Options)
    (k : Nat) : refreshCountFor (l.map fun e => Call.api (f e) e.2) k = 0 := by
  simp [refreshCountFor, List.countP_map, Function.comp]

@[simp]
theorem countRefreshCalls_reverse (l : List Call) :
    countRefreshCalls l.reverse = countRefreshCalls l := by
  simp [countRefreshCalls, List.countP_reverse]

@[simp]
theorem refreshCountFor_reverse (l : List Call) (k : Nat) :
    refreshCountFor l.reverse k = refreshCountFor l k := by
  simp [refreshCountFor, List.countP_reverse]

@[simp]
theorem pendingApiCount_reverse (l : List Call) (k : Nat) :
    pendingApiCount l.reverse k = pendingApiCount l k := by
  simp [pendingApiCount, List.countP_reverse]

theorem refreshCountFor_le_countRefreshCalls (l : List Call) (k : Nat) :
    refreshCountFor l k ≤ countRefreshCalls l := by
  refine List.countP_mono_left fun c _ h => ?_
  cases c with
  | api o j => simp [refreshCountFor] at h
  | refresh j => rfl

@[simp]
theorem pendingApiCount_append (a b : List Call) (k : Nat) :
    pendingApiCount (a ++ b) k = pendingApiCount a k + pendingApiCount b k :=
  List.countP_append _ a b

@[simp]
theorem pendingApiCount_nil (k : Nat) : pendingApiCount [] k = 0 := rfl

@[simp]
theorem pendingApiCount_refresh (j k : Nat) :
    pendingApiCount [Call.refresh j] k = 0 := rfl

@[simp]
theorem pendingApiCount_api (o : Options) (j k : Nat) :
    pendingApiCount [Call.api o j] k = if j == k then 1 else 0 := by
  simp [pendingApiCount, List.countP_cons, List.countP_nil]

@[simp]
theorem pendingApiCount_map_api (l : List (Options × Nat)) (f : Options × Nat → Options)
    (k : Nat) :
    pendingApiCount (l.map fun e => Call.api (f e) e.2) k = queueCount l k := by
  simp only [pendingApiCount, queueCount, List.countP_map]
  rfl

@[simp]
theorem queueCount_append (a b : List (Options × Nat)) (k : Nat) :
    queueCount (a ++ b) k = queueCount a k + queueCount b k :=
  List.countP_append _ a b

@[simp]
theorem queueCount_nil (k : Nat) : queueCount [] k = 0 := rfl

@[simp]
theorem queueCount_single (o : Options) (j k : Nat) :
    queueCount [(o, j)] k = if j == k then 1 else 0 := by
  simp [queueCount, List.countP_cons, List.countP_nil]

@[simp]
theorem queueCount_reverse (q : List (Options × Nat)) (k : Nat) :
    queueCount q.reverse k = queueCount q k := by
  simp [queueCount, List.countP_reverse]

@[simp]
theorem invocationCount_append (a b : List (Nat × CbArg × CbArg)) (k : Nat) :
    invocationCount (a ++ b) k = invocationCount a k + invocationCount b k :=
  List.countP_append _ a b

@[simp]
theorem invocationCount_nil (k : Nat) : invocationCount [] k = 0 := rfl

@[simp]
theorem invocationCount_single (j : Nat) (a b : CbArg) (k : Nat) :
    invocationCount [(j, a, b)] k = if j == k then 1 else 0 := by
  simp [invocationCount, List.countP_cons, List.countP_nil]

@[simp]
theorem countRefreshCalls_cons_api (o : Options) (k : Nat) (l : List Call) :
    countRefreshCalls (Call.api o k :: l) = countRefreshCalls l := by
  simp [countRefreshCalls, List.countP_cons]

@[simp]
theorem countRefreshCalls_cons_refresh (k : Nat) (l : List Call) :
    countRefreshCalls (Call.refresh k :: l) = countRefreshCalls l + 1 := by
  simp [countRefreshCalls, List.countP_cons]

@[simp]
theorem refreshCountFor_cons_api (o : Options) (j k : Nat) (l : List Call) :
    refreshCountFor (Call.api o j :: l) k = refreshCountFor l k := by
  simp [refreshCountFor, List.countP_cons]

theorem refreshCountFor_cons_refresh (j k : Nat) (l : List Call) :
    refreshCountFor (Call.refresh j :: l) k =
      refreshCountFor l k + (if j == k then 1 else 0) := by
  simp [refreshCountFor, List.countP_cons]

@[simp]
theorem pendingApiCount_cons_api (o : Options) (j k : Nat) (l : List Call) :
    pendingApiCount (Call.api o j :: l) k =
      pendingApiCount l k + (if j == k then 1 else 0) := by
  simp [pendingApiCount, List.countP_cons]

@[simp]
theorem pendingApiCount_cons_refresh (j k : Nat) (l : List Call) :
    pendingApiCount (Call.refresh j :: l) k = pendingApiCount l k := by
  simp [pendingApiCount, List.countP_cons]

theorem apiRequest_retryQueue_irrel (s : Session) (q : List (Options × Nat))
    (o : Options) : apiRequest { s with retryQueue := q } o = apiRequest s o := rfl

theorem drainRetryQueue_spec :
    ∀ (fuel : Nat) (s : Session), s.retryQueue.length ≤ fuel →
      drainRetryQueue fuel s =
        ({ s with retryQueue := [] },
         s.retryQueue.reverse.map fun e => Call.api (apiRequest s e.1) e.2) := by
  intro fuel
  induction fuel with
  | zero =>
      intro s h
      have hq : s.retryQueue = [] := List.length_eq_zero.mp (Nat.le_zero.mp h)
      rw [drainRetryQueue]
      cases s
      simp_all
  | succ fuel ih =>
      intro s h
      rw [drainRetryQueue]
      cases hl : s.retryQueue.getLast? with
      | none =>
          have hq : s.retryQueue = [] := by
            cases hq2 : s.retryQueue with
            | nil => rfl
            | cons x xs => rw [hq2] at hl; simp [List.getLast?_concat] at hl
          cases s
          simp_all
      | some e =>
          have hdec := getLast?_decomp s.retryQueue e hl
          have hlen : s.retryQueue.dropLast.length ≤ fuel := by
            have : s.retryQueue.length = s.retryQueue.dropLast.length + 1 := by
              conv_lhs => rw [hdec]
              simp
            omega
          have ihs := ih { s with retryQueue := s.retryQueue.dropLast } hlen
          simp only [ihs, Prod.mk.injEq]
          refine ⟨trivial, ?_⟩
          conv_rhs => rw [hdec]
          simp only [List.reverse_append, List.reverse_cons, List.reverse_nil,
            List.nil_append, List.singleton_append, List.map_cons]
          rfl

theorem apiRequestHandler_ok_cases (s : Session) (o : Options) (cb : Nat)
    (comp : Completion) (r : HandlerResult)
    (h : apiRequestHandler s o cb comp = Except.ok r) :
    (r.session = s ∧ r.newCalls = [] ∧ ∃ a b, r.invocations = [(cb, a, b)]) ∨
    (s.refreshActive = true ∧
      r.session = { s with retryQueue := s.retryQueue ++ [(o, cb)] } ∧
      r.newCalls = [] ∧ r.invocations = []) ∨
    (s.refreshActive = false ∧
      r.session = { s with retryQueue := s.retryQueue ++ [(o, cb)], refreshActive := true } ∧
      r.newCalls = [Call.refresh cb] ∧ r.invocations = []) := by
  cases comp with
  | failure e => simp [apiRequestHandler] at h
  | success res0 =>
      rw [apiRequestHandler] at h
      cases hp : preparse o res0 with
      | error e =>
          simp only [hp] at h
          exact Except.noConfusion h
      | ok res =>
          simp only [hp] at h
          cases hca : classifyAuthFailure res with
          | error e =>
              simp only [hca] at h
              exact Except.noConfusion h
          | ok isAuth =>
              simp only [hca] at h
              cases isAuth with
              | true =>
                  rw [if_pos rfl] at h
                  injection h with h2
                  subst h2
                  by_cases hact : s.refreshActive = true
                  · refine Or.inr (Or.inl ⟨hact, ?_, ?_, rfl⟩)
                    · show (refreshAccessToken s o cb).1 = _
                      simp [refreshAccessToken, hact]
                    · show (refreshAccessToken s o cb).2 = []
                      simp [refreshAccessToken, hact]
                  · have hact2 : s.refreshActive = false := by simpa using hact
                    refine Or.inr (Or.inr ⟨hact2, ?_, ?_, rfl⟩)
                    · show (refreshAccessToken s o cb).1 = _
                      simp [refreshAccessToken, hact2]
                    · show (refreshAccessToken s o cb).2 = [Call.refresh cb]
                      simp [refreshAccessToken, hact2]
              | false =>
                  rw [if_neg (by simp)] at h
                  by_cases h200 : res.statusCode ≠ 200
                  · rw [if_pos h200] at h
                    injection h with h2
                    subst h2
                    exact Or.inl ⟨rfl, rfl, _, _, rfl⟩
                  · rw [if_neg h200] at h
                    injection h with h2
                    subst h2
                    exact Or.inl ⟨rfl, rfl, _, _, rfl⟩

theorem refreshAccessTokenHandler_ok_cases (s : Session) (cb : Nat) (comp : Completion)
    (r : HandlerResult) (h : refreshAccessTokenHandler s cb comp = Except.ok r) :
    (∃ res : HttpResponse,
       r.session = { s with refreshActive := false, retryQueue := [] } ∧
       r.newCalls = [] ∧
       r.invocations = [(cb, CbArg.val res.body, CbArg.response res)]) ∨
    (∃ tok : JsValue,
       r.session = { s with refreshActive := false, accessToken := tok, retryQueue := [] } ∧
       r.newCalls = s.retryQueue.reverse.map
         (fun e => Call.api (apiRequest { s with accessToken := tok } e.1) e.2) ∧
       r.invocations = []) := by
  cases comp with
  | failure e => simp [refreshAccessTokenHandler] at h
  | success res =>
      rw [refreshAccessTokenHandler] at h
      by_cases h200 : res.statusCode ≠ 200
      · rw [if_pos h200] at h
        injection h with h2
        subst h2
        exact Or.inl ⟨res, rfl, rfl, rfl⟩
      · rw [if_neg h200] at h
        cases hj : jsJSONParse res.body with
        | none =>
            simp only [hj] at h
            exact Except.noConfusion h
        | some token =>
            simp only [hj] at h
            cases hg : getProp token "access_token" with
            | error e =>
                simp only [hg] at h
                exact Except.noConfusion h
            | ok tokenVal =>
                simp only [hg] at h
                injection h with h2
                subst h2
                have hdrain := drainRetryQueue_spec
                  ({ s with refreshActive := false, accessToken := tokenVal } :
                    Session).retryQueue.length
                  { s with refreshActive := false, accessToken := tokenVal }
                  (Nat.le_refl _)
                refine Or.inr ⟨tokenVal, ?_, ?_, rfl⟩
                · show (drainRetryQueue _ _).1 = _
                  rw [hdrain]
                · show (drainRetryQueue _ _).2 = _
                  rw [hdrain]
                  rfl

theorem step_crashed_eq (c : Config) (e : Event) (hc : c.crashed = true) :
    step c e = c := by
  simp [step, hc]

theorem step_dispatch_eq (c : Config) (o : Options) (k : Nat)
    (hc : c.crashed = false) :
    step c (Event.dispatch o k) =
      { c with pending := c.pending ++ [Call.api (apiRequest c.session o) k] } := by
  simp [step, hc]

theorem step_complete_none (c : Config) (i : Nat) (comp : Completion)
    (hc : c.crashed = false) (hcall : c.pending[i]? = none) :
    step c (Event.complete i comp) = c := by
  simp [step, hc, hcall]

theorem step_complete_api_error (c : Config) (i : Nat) (comp : Completion)
    (o : Options) (cb : Nat) (err : JsError) (hc : c.crashed = false)
    (hcall : c.pending[i]? = some (Call.api o cb))
    (hres : apiRequestHandler c.session o cb comp = Except.error err) :
    step c (Event.complete i comp) =
      { c with pending := c.pending.eraseIdx i, crashed := true } := by
  simp [step, hc, hcall, hres]

theorem step_complete_api_ok (c : Config) (i : Nat) (comp : Completion)
    (o : Options) (cb : Nat) (r : HandlerResult) (hc : c.crashed = false)
    (hcall : c.pending[i]? = some (Call.api o cb))
    (hres : apiRequestHandler c.session o cb comp = Except.ok r) :
    step c (Event.complete i comp) =
      { session := r.session
        pending := c.pending.eraseIdx i ++ r.newCalls
        log := c.log ++ r.invocations
        tokenCalls := c.tokenCalls + countRefreshCalls r.newCalls
        crashed := false } := by
  simp [step, hc, hcall, hres]

theorem step_complete_refresh_error (c : Config) (i : Nat) (comp : Completion)
    (cb : Nat) (err : JsError) (hc : c.crashed = false)
    (hcall : c.pending[i]? = some (Call.refresh cb))
    (hres : refreshAccessTokenHandler c.session cb comp = Except.error err) :
    step c (Event.complete i comp) =
      { c with pending := c.pending.eraseIdx i, crashed := true } := by
  simp [step, hc, hcall, hres]

theorem step_complete_refresh_ok (c : Config) (i : Nat) (comp : Completion)
    (cb : Nat) (r : HandlerResult) (hc : c.crashed = false)
    (hcall : c.pending[i]? = some (Call.refresh cb))
    (hres : refreshAccessTokenHandler c.session cb comp = Except.ok r) :
    step c (Event.complete i comp) =
      { session := r.session
        pending := c.pending.eraseIdx i ++ r.newCalls
        log := c.log ++ r.invocations
        tokenCalls := c.tokenCalls + countRefreshCalls r.newCalls
        crashed := false } := by
  simp [step, hc, hcall, hres]

theorem step_preserves_machineInv (c : Config) (e : Event) (h : MachineInv c) :
    MachineInv (step c e) := by
  by_cases hc : c.crashed = true
  · rw [step_crashed_eq c e hc]
    exact h
  have hc2 : c.crashed = false := by simpa using hc
  obtain ⟨hSF, hTQ⟩ := h hc2
  have hSF2 : countRefreshCalls c.pending =
      (if c.session.refreshActive then 1 else 0) := hSF
  have hTQ2 : ∀ k, 1 ≤ refreshCountFor c.pending k →
      1 ≤ queueCount c.session.retryQueue k := hTQ
  cases e with
  | dispatch o k =>
      rw [step_dispatch_eq c o k hc2]
      intro _
      refine ⟨?_, ?_⟩
      · show countRefreshCalls (c.pending ++ [Call.api (apiRequest c.session o) k]) = _
        simpa using hSF
      · intro k2 hk2
        simp only [refreshCountFor_append, refreshCountFor_api, Nat.add_zero] at hk2
        exact hTQ2 k2 hk2
  | complete i comp =>
      cases hcall : c.pending[i]? with
      | none =>
          rw [step_complete_none c i comp hc2 hcall]
          exact h
      | some call =>
          obtain ⟨l1, l2, hdecomp, herase⟩ := getElem?_split c.pending i call hcall
          cases call with
          | api opts cb =>
              cases hres : apiRequestHandler c.session opts cb comp with
              | error err =>
                  rw [step_complete_api_error c i comp opts cb err hc2 hcall hres]
                  intro hcr2
                  simp at hcr2
              | ok r =>
                  rw [step_complete_api_ok c i comp opts cb r hc2 hcall hres]
                  intro _
                  rw [hdecomp] at hSF2
                  simp only [countRefreshCalls_append, countRefreshCalls_cons_api] at hSF2
                  rcases apiRequestHandler_ok_cases _ _ _ _ _ hres with
                    ⟨hs, hnc, -, -, hin⟩ | ⟨hact, hs, hnc, hin⟩ | ⟨hact, hs, hnc, hin⟩
                  · refine ⟨?_, ?_⟩
                    · show countRefreshCalls (c.pending.eraseIdx i ++ r.newCalls) = _
                      rw [herase, hnc, hs]
                      simpa using hSF2
                    · intro k2 hk2
                      rw [herase, hnc] at hk2
                      simp only [refreshCountFor_append, refreshCountFor_nil,
                        Nat.add_zero] at hk2
                      rw [hs]
                      refine hTQ2 k2 ?_
                      rw [hdecomp]
                      simpa using hk2
                  · refine ⟨?_, ?_⟩
                    · show countRefreshCalls (c.pending.eraseIdx i ++ r.newCalls) = _
                      rw [herase, hnc, hs]
                      simp only [hact, if_true] at hSF2
                      simp [hact]
                      omega
                    · intro k2 hk2
                      rw [herase, hnc] at hk2
                      simp only [refreshCountFor_append, refreshCountFor_nil,
                        Nat.add_zero] at hk2
                      rw [hs]
                      have hq := hTQ2 k2 (by rw [hdecomp]; simpa using hk2)
                      show 1 ≤ queueCount (c.session.retryQueue ++ [(opts, cb)]) k2
                      simp only [queueCount_append]
                      omega
                  · have hz : countRefreshCalls l1 = 0 ∧ countRefreshCalls l2 = 0 := by
                      rw [hact] at hSF2
                      simp at hSF2
                      omega
                    refine ⟨?_, ?_⟩
                    · show countRefreshCalls (c.pending.eraseIdx i ++ r.newCalls) = _
                      rw [herase, hnc, hs]
                      simp [hz.1, hz.2]
                    · intro k2 hk2
                      rw [herase, hnc] at hk2
                      have hb1 := refreshCountFor_le_countRefreshCalls l1 k2
                      have hb2 := refreshCountFor_le_countRefreshCalls l2 k2
                      simp only [refreshCountFor_append] at hk2
                      rw [refreshCountFor_cons_refresh, refreshCountFor_nil] at hk2
                      have hcb : (cb == k2) = true := by
                        by_cases hbe : (cb == k2) = true
                        · exact hbe
                        · have hbe2 : (cb == k2) = false := by simpa using hbe
                          rw [hbe2] at hk2
                          simp at hk2
                          omega
                      rw [hs]
                      show 1 ≤ queueCount (c.session.retryQueue ++ [(opts, cb)]) k2
                      simp only [queueCount_append, queueCount_single, hcb]
                      simp
          | refresh cb =>
              cases hres : refreshAccessTokenHandler c.session cb comp with
              | error err =>
                  rw [step_complete_refresh_error c i comp cb err hc2 hcall hres]
                  intro hcr2
                  simp at hcr2
              | ok r =>
                  rw [step_complete_refresh_ok c i comp cb r hc2 hcall hres]
                  intro _
                  rw [hdecomp] at hSF2
                  simp only [countRefreshCalls_append,
                    countRefreshCalls_cons_refresh] at hSF2
                  have hz : countRefreshCalls l1 = 0 ∧ countRefreshCalls l2 = 0 := by
                    by_cases hact : c.session.refreshActive = true
                    · rw [hact] at hSF2
                      simp at hSF2
                      omega
                    · have hact2 : c.session.refreshActive = false := by simpa using hact
                      rw [hact2] at hSF2
                      simp at hSF2
                  rcases refreshAccessTokenHandler_ok_cases _ _ _ _ hres with
                    ⟨res2, hs, hnc, hin⟩ | ⟨tok, hs, hnc, hin⟩
                  · refine ⟨?_, ?_⟩
                    · show countRefreshCalls (c.pending.eraseIdx i ++ r.newCalls) = _
                      rw [herase, hnc, hs]
                      simp [hz.1, hz.2]
                    · intro k2 hk2
                      rw [herase, hnc] at hk2
                      have hb1 := refreshCountFor_le_countRefreshCalls l1 k2
                      have hb2 := refreshCountFor_le_countRefreshCalls l2 k2
                      simp only [refreshCountFor_append, refreshCountFor_nil,
                        Nat.add_zero] at hk2
                      omega
                  · refine ⟨?_, ?_⟩
                    · show countRefreshCalls (c.pending.eraseIdx i ++ r.newCalls) = _
                      rw [herase, hnc, hs]
                      simp [hz.1, hz.2]
                    · intro k2 hk2
                      rw [herase, hnc] at hk2
                      have hb1 := refreshCountFor_le_countRefreshCalls l1 k2
                      have hb2 := refreshCountFor_le_countRefreshCalls l2 k2
                      simp only [refreshCountFor_append, refreshCountFor_nil,
                        refreshCountFor_map_api, Nat.add_zero] at hk2
                      omega

theorem run_preserves_machineInv (events : List Event) :
    ∀ c : Config, MachineInv c → MachineInv (run c events) := by
  induction events with
  | nil => intro c h; exact h
  | cons e rest ih =>
      intro c h
      exact ih (step c e) (step_preserves_machineInv c e h)

theorem machineInv_init (clientId clientSecret : String) (version : Option String) :
    MachineInv (initConfig clientId clientSecret version) := by
  intro _
  exact ⟨rfl, fun k hk => by simp [initConfig, refreshCountFor] at hk⟩

theorem step_obligations (c : Config) (e : Event) (h : MachineInv c) (k : Nat) :
    obligations (step c e) k ≤ obligations c k + eventDispatch e k := by
  by_cases hc : c.crashed = true
  · rw [step_crashed_eq c e hc]
    exact Nat.le_add_right _ _
  have hc2 : c.crashed = false := by simpa using hc
  obtain ⟨hSF, hTQ⟩ := h hc2
  have hTQ2 : ∀ j, 1 ≤ refreshCountFor c.pending j →
      1 ≤ queueCount c.session.retryQueue j := hTQ
  cases e with
  | dispatch o kk =>
      rw [step_dispatch_eq c o kk hc2]
      simp only [obligations, eventDispatch, pendingApiCount_append, pendingApiCount_api]
      by_cases hb : (kk == k) = true
      · simp [hb]
        omega
      · have hb2 : (kk == k) = false := by simpa using hb
        simp [hb2]
  | complete i comp =>
      cases hcall : c.pending[i]? with
      | none =>
          rw [step_complete_none c i comp hc2 hcall]
          exact Nat.le_add_right _ _
      | some call =>
          obtain ⟨l1, l2, hdecomp, herase⟩ := getElem?_split c.pending i call hcall
          have hobl : obligations c k =
              invocationCount c.log k + pendingApiCount c.pending k +
                queueCount c.session.retryQueue k := rfl
          cases call with
          | api opts cb =>
              cases hres : apiRequestHandler c.session opts cb comp with
              | error err =>
                  rw [step_complete_api_error c i comp opts cb err hc2 hcall hres]
                  simp only [obligations, eventDispatch, Nat.add_zero]
                  rw [herase, hdecomp]
                  by_cases hb : (cb == k) = true
                  · simp [hb]
                  · have hb2 : (cb == k) = false := by simpa using hb
                    simp [hb2]
              | ok r =>
                  rw [step_complete_api_ok c i comp opts cb r hc2 hcall hres]
                  simp only [obligations, eventDispatch, Nat.add_zero]
                  rw [herase, hdecomp]
                  rcases apiRequestHandler_ok_cases _ _ _ _ _ hres with
                    ⟨hs, hnc, a, b, hin⟩ | ⟨hact, hs, hnc, hin⟩ | ⟨hact, hs, hnc, hin⟩ <;>
                    rw [hs, hnc, hin] <;>
                    (by_cases hb : (cb == k) = true
                     · simp [hb]; omega
                     · have hb2 : (cb == k) = false := by simpa using hb
                       simp [hb2])
          | refresh cb =>
              cases hres : refreshAccessTokenHandler c.session cb comp with
              | error err =>
                  rw [step_complete_refresh_error c i comp cb err hc2 hcall hres]
                  simp only [obligations, eventDispatch, Nat.add_zero]
                  rw [herase, hdecomp]
                  simp
              | ok r =>
                  rw [step_complete_refresh_ok c i comp cb r hc2 hcall hres]
                  simp only [obligations, eventDispatch, Nat.add_zero]
                  rw [herase, hdecomp]
                  rcases refreshAccessTokenHandler_ok_cases _ _ _ _ hres with
                    ⟨res2, hs, hnc, hin⟩ | ⟨tok, hs, hnc, hin⟩
                  · rw [hs, hnc, hin]
                    have hq : (cb == k) = true → 1 ≤ queueCount c.session.retryQueue k := by
                      intro hbk
                      refine hTQ2 k ?_
                      rw [hdecomp]
                      simp only [refreshCountFor_append, refreshCountFor_cons_refresh, hbk]
                      simp
                      omega
                    by_cases hb : (cb == k) = true
                    · have hq2 := hq hb
                      simp [hb]
                      omega
                    · have hb2 : (cb == k) = false := by simpa using hb
                      simp [hb2]
                  · rw [hs, hnc, hin]
                    simp
                    omega

theorem run_obligations (events : List Event) :
    ∀ (c : Config), MachineInv c → ∀ k,
      obligations (run c events) k ≤ obligations c k + dispatchCount events k := by
  induction events with
  | nil => intro c _ k; simp [run, dispatchCount]
  | cons e rest ih =>
      intro c h k
      have h1 := step_obligations c e h k
      have h2 := ih (step c e) (step_preserves_machineInv c e h) k
      have h3 : dispatchCount (e :: rest) k =
          eventDispatch e k + dispatchCount rest k := by
        cases e with
        | dispatch o kk =>
            simp [dispatchCount, eventDispatch, List.countP_cons, Nat.add_comm]
        | complete i comp => simp [dispatchCount, eventDispatch, List.countP_cons]
      have h4 : run c (e :: rest) = run (step c e) rest := rfl
      rw [h4, h3]
      omega

theorem step_queue_shape (c : Config) (e : Event) :
    (step c e).session.retryQueue = c.session.retryQueue ∨
    (∃ o k, (step c e).session.retryQueue = c.session.retryQueue ++ [(o, k)]) ∨
    (step c e).session.retryQueue = [] := by
  by_cases hc : c.crashed = true
  · rw [step_crashed_eq c e hc]
    exact Or.inl rfl
  have hc2 : c.crashed = false := by simpa using hc
  cases e with
  | dispatch o k =>
      rw [step_dispatch_eq c o k hc2]
      exact Or.inl rfl
  | complete i comp =>
      cases hcall : c.pending[i]? with
      | none =>
          rw [step_complete_none c i comp hc2 hcall]
          exact Or.inl rfl
      | some call =>
          cases call with
          | api opts cb =>
              cases hres : apiRequestHandler c.session opts cb comp with
              | error err =>
                  rw [step_complete_api_error c i comp opts cb err hc2 hcall hres]
                  exact Or.inl rfl
              | ok r =>
                  rw [step_complete_api_ok c i comp opts cb r hc2 hcall hres]
                  rcases apiRequestHandler_ok_cases _ _ _ _ _ hres with
                    ⟨hs, -, -⟩ | ⟨-, hs, -, -⟩ | ⟨-, hs, -, -⟩
                  · exact Or.inl (by rw [hs])
                  · exact Or.inr (Or.inl ⟨opts, cb, by rw [hs]⟩)
                  · exact Or.inr (Or.inl ⟨opts, cb, by rw [hs]⟩)
          | refresh cb =>
              cases hres : refreshAccessTokenHandler c.session cb comp with
              | error err =>
                  rw [step_complete_refresh_error c i comp cb err hc2 hcall hres]
                  exact Or.inl rfl
              | ok r =>
                  rw [step_complete_refresh_ok c i comp cb r hc2 hcall hres]
                  rcases refreshAccessTokenHandler_ok_cases _ _ _ _ hres with
                    ⟨res2, hs, -, -⟩ | ⟨tok, hs, -, -⟩
                  · exact Or.inr (Or.inr (by rw [hs]))
                  · exact Or.inr (Or.inr (by rw [hs]))

theorem step_accessToken_cases (c : Config) (e : Event) :
    (step c e).session.accessToken = c.session.accessToken ∨
    (∃ i res cb, e = Event.complete i (Completion.success res) ∧
      c.pending[i]? = some (Call.refresh cb) ∧ res.statusCode = 200) := by
  by_cases hc : c.crashed = true
  · rw [step_crashed_eq c e hc]
    exact Or.inl rfl
  have hc2 : c.crashed = false := by simpa using hc
  cases e with
  | dispatch o k =>
      rw [step_dispatch_eq c o k hc2]
      exact Or.inl rfl
  | complete i comp =>
      cases hcall : c.pending[i]? with
      | none =>
          rw [step_complete_none c i comp hc2 hcall]
          exact Or.inl rfl
      | some call =>
          cases call with
          | api opts cb =>
              cases hres : apiRequestHandler c.session opts cb comp with
              | error err =>
                  rw [step_complete_api_error c i comp opts cb err hc2 hcall hres]
                  exact Or.inl rfl
              | ok r =>
                  rw [step_complete_api_ok c i comp opts cb r hc2 hcall hres]
                  rcases apiRequestHandler_ok_cases _ _ _ _ _ hres with
                    ⟨hs, -, -⟩ | ⟨-, hs, -, -⟩ | ⟨-, hs, -, -⟩ <;>
                  exact Or.inl (by rw [hs])
          | refresh cb =>
              cases comp with
              | failure err =>
                  have hres : refreshAccessTokenHandler c.session cb
                      (Completion.failure err) = Except.error JsError.typeError := rfl
                  rw [step_complete_refresh_error c i (Completion.failure err)
                    cb JsError.typeError hc2 hcall hres]
                  exact Or.inl rfl
              | success res =>
                  by_cases h200 : res.statusCode ≠ 200
                  · have hres : refreshAccessTokenHandler c.session cb
                        (Completion.success res) = Except.ok
                          { session := { c.session with refreshActive := false, retryQueue := [] }
                            newCalls := []
                            invocations :=
                              [(cb, CbArg.val res.body, CbArg.response res)] } := by
                      rw [refreshAccessTokenHandler, if_pos h200]
                    rw [step_complete_refresh_ok c i (Completion.success res) cb _
                      hc2 hcall hres]
                    exact Or.inl rfl
                  · have h200e : res.statusCode = 200 := by omega
                    exact Or.inr ⟨i, res, cb, rfl, hcall, h200e⟩

theorem preparse_statusCode (o : Options) (res res2 : HttpResponse)
    (h : preparse o res = Except.ok res2) : res2.statusCode = res.statusCode := by
  rw [preparse] at h
  by_cases hg : (!truthy o.json && isStringVal res.body && startsWithBrace res.body) = true
  · rw [if_pos hg] at h
    cases hj : jsJSONParse res.body with
    | none => rw [hj] at h; exact Except.noConfusion h
    | some parsed =>
        rw [hj] at h
        injection h with h2
        rw [← h2]
  · rw [if_neg hg] at h
    injection h with h2
    rw [← h2]

theorem apiRequestHandler_auth (s : Session) (o : Options) (cb : Nat)
    (res res2 : HttpResponse) (hp : preparse o res = Except.ok res2)
    (hauth : classifyAuthFailure res2 = Except.ok true) :
    apiRequestHandler s o cb (Completion.success res) =
      Except.ok { session := (refreshAccessToken s o cb).1
                  newCalls := (refreshAccessToken s o cb).2
                  invocations := [] } := by
  rw [apiRequestHandler]
  simp only [hp, hauth, if_true]

theorem apiRequestHandler_non200 (s : Session) (o : Options) (cb : Nat)
    (res res2 : HttpResponse) (hp : preparse o res = Except.ok res2)
    (hcls : classifyAuthFailure res2 = Except.ok false)
    (h200 : res2.statusCode ≠ 200) :
    apiRequestHandler s o cb (Completion.success res) =
      Except.ok { session := s
                  newCalls := []
                  invocations := [(cb, CbArg.val res2.body, CbArg.response res2)] } := by
  rw [apiRequestHandler]
  simp only [hp, hcls, Bool.false_eq_true, if_false, if_pos h200]

theorem apiRequestHandler_200 (s : Session) (o : Options) (cb : Nat)
    (res res2 : HttpResponse) (hp : preparse o res = Except.ok res2)
    (hcls : classifyAuthFailure res2 = Except.ok false)
    (h200 : res2.statusCode = 200) :
    apiRequestHandler s o cb (Completion.success res) =
      Except.ok { session := s
                  newCalls := []
                  invocations := [(cb, CbArg.val vNull,
                    CbArg.val ((jsJSONParse res2.body).getD res2.body))] } := by
  rw [apiRequestHandler]
  have h200n : ¬res2.statusCode ≠ 200 := by omega
  simp only [hp, hcls, Bool.false_eq_true, if_false, if_neg h200n]
  cases hj : jsJSONParse res2.body <;> simp [hj, Option.getD]

theorem parseValue_brace_obj (fuel : Nat) (cs rest : List Char) (v : JsValue)
    (r : List Char) (hcs : skipWs cs = lbrace :: rest)
    (h : parseValue fuel cs = some (v, r)) : ∃ fields, v = vObj fields := by
  cases fuel with
  | zero => rw [parseValue] at h; exact Option.noConfusion h
  | succ fuel =>
      rw [parseValue, hcs] at h
      split at h
      · exact Option.noConfusion h
      · rename_i x c2 cs2 heq
        injection heq with hc hrest
        subst hc
        subst hrest
        rw [if_neg (by decide), if_pos rfl] at h
        split at h
        · exact Option.noConfusion h
        · rename_i d r2 heq2
          by_cases hd : d = rbrace
          · rw [if_pos hd] at h
            injection h with h2
            injection h2 with h3 h4
            exact ⟨[], h3.symm⟩
          · rw [if_neg hd] at h
            split at h <;>
              first
              | exact Option.noConfusion h
              | (rename_i fields r3 heq3
                 injection h with h2
                 injection h2 with h3 h4
                 exact ⟨fields, h3.symm⟩)

theorem jsonParse_brace_obj (str : String) (v : JsValue)
    (hs : startsWithBrace (vStr str) = true) (hp : jsonParse str = some v) :
    ∃ fields, v = vObj fields := by
  have hd : ∃ rest, str.data = lbrace :: rest := by
    cases hdata : str.data with
    | nil => rw [startsWithBrace, hdata] at hs; exact Bool.noConfusion hs
    | cons c cs2 =>
        rw [startsWithBrace, hdata] at hs
        simp at hs
        exact ⟨cs2, by rw [hs]⟩
  obtain ⟨rest, hdata⟩ := hd
  rw [jsonParse] at hp
  cases hpv : parseValue (str.length + 1) str.data with
  | none => rw [hpv] at hp; exact Option.noConfusion hp
  | some pr =>
      obtain ⟨v2, r2⟩ := pr
      rw [hpv] at hp
      have hp2 : (match skipWs r2 with
          | [] => some v2
          | _ :: _ => (none : Option JsValue)) = some v := hp
      have hv : v2 = v := by
        cases hsk : skipWs r2 with
        | nil =>
            rw [hsk] at hp2
            injection hp2
        | cons x xs =>
            rw [hsk] at hp2
            exact Option.noConfusion hp2
      have hskcs : skipWs str.data = lbrace :: rest := by
        rw [hdata, skipWs, if_neg (by decide)]
      obtain ⟨fields, hf⟩ := parseValue_brace_obj (str.length + 1) str.data rest
        v2 r2 hskcs hpv
      exact ⟨fields, by rw [← hv, hf]⟩

theorem jsJSONParse_vObj (fields : List (String × JsValue)) :
    jsJSONParse (vObj fields) = none := rfl






/-- C1: single-flight refresh.  (1) Entering `refreshAccessToken` while
`refreshActive` is true appends the entry to the retry queue and issues
no token-endpoint call.  (2) In every non-crashed reachable machine
configuration the number of outstanding token-endpoint calls is 1 when
`refreshActive` is set and 0 otherwise.  (3) Concretely, three requests
that all fail with 401 before the refresh completes produce exactly one
token-endpoint call, with all three queued. -/
theorem claim_C1_single_flight :
    (∀ (s : Session) (o : Options) (cb : Nat), s.refreshActive = true →
      refreshAccessToken s o cb =
        ({ s with retryQueue := s.retryQueue ++ [(o, cb)] }, [])) ∧
    (∀ (clientId clientSecret : String) (version : Option String)
        (events : List Event),
      (run (initConfig clientId clientSecret version) events).crashed = false →
      countRefreshCalls (run (initConfig clientId clientSecret version) events).pending =
        (if (run (initConfig clientId clientSecret version) events).session.refreshActive
          then 1 else 0)) ∧
    (c1Final.tokenCalls = 1 ∧ c1Final.pending = [Call.refresh 1] ∧
      c1Final.session.retryQueue.map (fun e => e.2) = [1, 2, 3] ∧
      c1Final.crashed = false) := by
  refine ⟨?_, ?_, rfl, rfl, rfl, rfl⟩
  · intro s o cb hact
    simp [refreshAccessToken, hact]
  · intro clientId clientSecret version events hcr
    exact (run_preserves_machineInv events _
      (machineInv_init clientId clientSecret version) hcr).1

/-- Witness for C1 at concrete inputs. -/
theorem claim_C1_single_flight_witness :
    refreshAccessToken sampleActiveSession (sampleOptions "/w") 9 =
      ({ sampleActiveSession with
          retryQueue := sampleActiveSession.retryQueue ++ [(sampleOptions "/w", 9)] },
       []) ∧
    (run (initConfig "client-id" "client-secret" none) c1Events).crashed = false ∧
    countRefreshCalls (run (initConfig "client-id" "client-secret" none) c1Events).pending =
      (if (run (initConfig "client-id" "client-secret" none) c1Events).session.refreshActive
        then 1 else 0) :=
  ⟨claim_C1_single_flight.1 sampleActiveSession (sampleOptions "/w") 9 rfl,
   rfl,
   claim_C1_single_flight.2.1 "client-id" "client-secret" none c1Events rfl⟩

/-- C2: refresh-failure handling.  A non-200 token-endpoint response
clears `refreshActive`, discards the entire retry queue, and invokes
exactly the callback that triggered the refresh, with the refresh
failure as its error argument; no other callback fires and no further
call is issued in that step. -/
theorem claim_C2_refresh_failure (s : Session) (cb : Nat) (res : HttpResponse)
    (h : res.statusCode ≠ 200) :
    refreshAccessTokenHandler s cb (Completion.success res) =
      Except.ok { session := { s with refreshActive := false, retryQueue := [] }
                  newCalls := []
                  invocations := [(cb, CbArg.val res.body, CbArg.response res)] } := by
  rw [refreshAccessTokenHandler, if_pos h]

/-- Witness for C2: a 400 from the token endpoint. -/
theorem claim_C2_refresh_failure_witness :
    refreshAccessTokenHandler sampleActiveSession 5
        (Completion.success { statusCode := 400, body := vStr "Bad Request" }) =
      Except.ok
        { session := { sampleActiveSession with refreshActive := false, retryQueue := [] }
          newCalls := []
          invocations := [(5, CbArg.val (vStr "Bad Request"),
            CbArg.response { statusCode := 400, body := vStr "Bad Request" })] } :=
  claim_C2_refresh_failure sampleActiveSession 5
    { statusCode := 400, body := vStr "Bad Request" } (by decide)



/-- C3: LIFO replay order.  (1) A 200 token-endpoint response stores the
parsed access token, clears the flag and the queue, and re-dispatches
every queued entry through `apiRequest` in reverse arrival order
(entries are popped off the end of the queue).  (2) Concretely, a queue
A, B, C is replayed as C, B, A. -/
theorem claim_C3_lifo_replay :
    (∀ (s : Session) (cb : Nat) (res : HttpResponse) (token tokenVal : JsValue),
      res.statusCode = 200 →
      jsJSONParse res.body = some token →
      getProp token "access_token" = Except.ok tokenVal →
      refreshAccessTokenHandler s cb (Completion.success res) =
        Except.ok
          { session :=
              { s with refreshActive := false, accessToken := tokenVal, retryQueue := [] }
            newCalls := s.retryQueue.reverse.map
              (fun e => Call.api (apiRequest { s with accessToken := tokenVal } e.1) e.2)
            invocations := [] }) ∧
    (refreshAccessTokenHandler c3Session 1 (Completion.success c3Res) =
      Except.ok
        { session :=
            { c3Session with refreshActive := false, accessToken := vStr "tok", retryQueue := [] }
          newCalls :=
            [Call.api (apiRequest { c3Session with accessToken := vStr "tok" }
                (sampleOptions "/c")) 3,
             Call.api (apiRequest { c3Session with accessToken := vStr "tok" }
                (sampleOptions "/b")) 2,
             Call.api (apiRequest { c3Session with accessToken := vStr "tok" }
                (sampleOptions "/a")) 1]
          invocations := [] }) := by
  refine ⟨?_, rfl⟩
  intro s cb res token tokenVal h200 hj hg
  have h200n : ¬res.statusCode ≠ 200 := by omega
  rw [refreshAccessTokenHandler, if_neg h200n]
  simp only [hj, hg]
  have hdrain := drainRetryQueue_spec
    ({ s with refreshActive := false, accessToken := tokenVal } :
      Session).retryQueue.length
    { s with refreshActive := false, accessToken := tokenVal }
    (Nat.le_refl _)
  rw [hdrain]
  rfl

/-- Witness for C3 at the concrete A, B, C scenario. -/
theorem claim_C3_lifo_replay_witness :
    refreshAccessTokenHandler c3Session 1 (Completion.success c3Res) =
      Except.ok
        { session :=
            { c3Session with refreshActive := false, accessToken := vStr "tok", retryQueue := [] }
          newCalls := c3Session.retryQueue.reverse.map
            (fun e => Call.api
              (apiRequest { c3Session with accessToken := vStr "tok" } e.1) e.2)
          invocations := [] } :=
  claim_C3_lifo_replay.1 c3Session 1 c3Res
    (vObj [("access_token", vStr "tok")]) (vStr "tok") rfl rfl rfl

theorem classifyAuthFailure_of_not (res : HttpResponse)
    (h1 : res.statusCode ≠ 401) (h2 : res.statusCode ≠ 400) :
    classifyAuthFailure res = Except.ok false := by
  rw [classifyAuthFailure, if_neg (by simpa using h1), if_neg (by simpa using h2)]

/-- C4: queue membership.  (1) `refreshAccessToken` appends the
(descriptor, callback) entry to the retry queue before checking the
in-flight flag, in both branches.  (2) Along any run, the number of
queue entries carrying a given callback never exceeds the number of
dispatches of that callback, so a request that was dispatched once is
queued at most once.  (3) A machine step either leaves the retry queue
unchanged, appends exactly one entry to it, or empties it (the refresh
completion that replays or discards it). -/
theorem claim_C4_queue_membership :
    (∀ (s : Session) (o : Options) (cb : Nat),
      ((refreshAccessToken s o cb).1).retryQueue = s.retryQueue ++ [(o, cb)]) ∧
    (∀ (clientId clientSecret : String) (version : Option String)
        (events : List Event) (k : Nat),
      queueCount
          (run (initConfig clientId clientSecret version) events).session.retryQueue k ≤
        dispatchCount events k) ∧
    (∀ (c : Config) (e : Event),
      (step c e).session.retryQueue = c.session.retryQueue ∨
      (∃ o k, (step c e).session.retryQueue = c.session.retryQueue ++ [(o, k)]) ∨
      (step c e).session.retryQueue = []) := by
  refine ⟨?_, ?_, step_queue_shape⟩
  · intro s o cb
    by_cases hact : s.refreshActive = true <;> simp [refreshAccessToken, hact]
  · intro clientId clientSecret version events k
    have h := run_obligations events (initConfig clientId clientSecret version)
      (machineInv_init clientId clientSecret version) k
    have h2 : queueCount
        (run (initConfig clientId clientSecret version) events).session.retryQueue k ≤
        obligations (run (initConfig clientId clientSecret version) events) k :=
      Nat.le_add_left _ _
    have h0 : obligations (initConfig clientId clientSecret version) k = 0 := rfl
    omega

/-- C5: the code's handling of a transport-level failure.  The response
handler of `apiRequest` never tests its `err` argument; on a transport
failure `res` is `undefined`, the reparse guard is skipped (the body is
not a string), and `res.statusCode` throws an uncaught TypeError.  The
callback is therefore never invoked with `(error, undefined)` as the
specification describes: the process crashes instead. -/
theorem claim_C5_transport_error_crash (s : Session) (o : Options) (cb : Nat)
    (err : JsValue) :
    apiRequestHandler s o cb (Completion.failure err) =
      Except.error JsError.typeError := rfl

/-- C6 counterexample: a 200 response whose body begins with an opening
brace but is not valid JSON makes the unguarded reparse at the top of
the handler throw an uncaught SyntaxError: the callback never receives
the raw payload, contradicting the claimed graceful degradation. -/
theorem claim_C6_counterexample :
    apiRequestHandler sampleSession (sampleOptions "/x") 7
      (Completion.success { statusCode := 200, body := vStr "\x7bnot json" }) =
      Except.error JsError.syntaxError := rfl

/-- C6 (amended): 200-response handling.  (1) Concretely, the P6 body
parses and the callback receives the parsed object.  (2) A leading-brace
string body that parses as JSON is delivered parsed as
`callback(null, parsed)`.  (3) When the reparse guard does not fire, the
final try/catch parse degrades gracefully: the callback receives the
parsed body on success and the raw body unchanged on parse failure.
(A leading-brace body that fails to parse crashes instead — see the
counterexample.) -/
theorem claim_C6_200_response_parsing :
    (apiRequestHandler sampleSession (sampleOptions "/activities/") 7
        (Completion.success { statusCode := 200, body := vStr "\x7b\"data\":[\x7b\"id\":\"1\"\x7d]\x7d" }) =
      Except.ok { session := sampleSession, newCalls := []
                  invocations := [(7, CbArg.val vNull,
                    CbArg.val (vObj [("data", vArr [vObj [("id", vStr "1")]])]))] }) ∧
    (∀ (s : Session) (o : Options) (cb : Nat) (res : HttpResponse) (v : JsValue),
      truthy o.json = false → startsWithBrace res.body = true →
      res.statusCode = 200 → jsJSONParse res.body = some v →
      apiRequestHandler s o cb (Completion.success res) =
        Except.ok { session := s, newCalls := []
                    invocations := [(cb, CbArg.val vNull, CbArg.val v)] }) ∧
    (∀ (s : Session) (o : Options) (cb : Nat) (res : HttpResponse),
      (!truthy o.json && isStringVal res.body && startsWithBrace res.body) = false →
      res.statusCode = 200 →
      apiRequestHandler s o cb (Completion.success res) =
        Except.ok { session := s, newCalls := []
                    invocations := [(cb, CbArg.val vNull,
                      CbArg.val ((jsJSONParse res.body).getD res.body))] }) := by
  refine ⟨rfl, ?_, ?_⟩
  · intro s o cb res v hjson hbrace h200 hparse
    obtain ⟨str, hbody⟩ : ∃ str, res.body = vStr str := by
      cases hbody : res.body <;> rw [hbody] at hbrace <;>
        first
        | exact ⟨_, rfl⟩
        | simp [startsWithBrace] at hbrace
    have hstr : isStringVal res.body = true := by rw [hbody]; rfl
    have hp : preparse o res = Except.ok { res with body := v } := by
      rw [preparse, if_pos (by simp [hjson, hstr, hbrace])]
      simp only [hparse]
    have hcls : classifyAuthFailure { res with body := v } = Except.ok false :=
      classifyAuthFailure_of_not _ (by simp [h200]) (by simp [h200])
    have h2 := apiRequestHandler_200 s o cb res { res with body := v } hp hcls
      (by simp [h200])
    have hparse2 : jsonParse str = some v := by
      have : jsJSONParse (vStr str) = some v := by rw [← hbody]; exact hparse
      exact this
    obtain ⟨fields, hv⟩ := jsonParse_brace_obj str v (by rw [← hbody]; exact hbrace)
      hparse2
    subst hv
    rw [h2]
    simp [jsJSONParse_vObj]
  · intro s o cb res hguard h200
    have hp : preparse o res = Except.ok res := by
      rw [preparse, if_neg (by simp [hguard])]
    have hcls : classifyAuthFailure res = Except.ok false :=
      classifyAuthFailure_of_not res (by rw [h200]; decide) (by rw [h200]; decide)
    exact apiRequestHandler_200 s o cb res res hp hcls h200

/-- Witness for the amended C6 at concrete inputs: a valid leading-brace
body for conjunct 2, and a plain-text body (parse failure, raw
passthrough) for conjunct 3. -/
theorem claim_C6_200_response_parsing_witness :
    apiRequestHandler sampleSession (sampleOptions "/y") 2
        (Completion.success { statusCode := 200, body := vStr "\x7b\"a\":1\x7d" }) =
      Except.ok { session := sampleSession, newCalls := []
                  invocations := [(2, CbArg.val vNull,
                    CbArg.val (vObj [("a", vNum 1)]))] } ∧
    apiRequestHandler sampleSession (sampleOptions "/z") 3
        (Completion.success { statusCode := 200, body := vStr "plain text" }) =
      Except.ok { session := sampleSession, newCalls := []
                  invocations := [(3, CbArg.val vNull,
                    CbArg.val ((jsJSONParse (vStr "plain text")).getD
                      (vStr "plain text")))] } :=
  ⟨claim_C6_200_response_parsing.2.1 sampleSession (sampleOptions "/y") 2
      { statusCode := 200, body := vStr "\x7b\"a\":1\x7d" }
      (vObj [("a", vNum 1)]) rfl rfl rfl rfl,
   claim_C6_200_response_parsing.2.2 sampleSession (sampleOptions "/z") 3
      { statusCode := 200, body := vStr "plain text" } rfl rfl⟩

/-- C7 counterexample: a response squarely in the claim's scope — a
500, with `options.json` falsy — whose body is a string beginning with
an opening brace but not valid JSON crashes in the unguarded reparse at
the top of the handler, before the non-200 branch is ever reached: the
callback is never invoked with `(responseBody, response)` as the claim
asserts. -/
theorem claim_C7_counterexample :
    apiRequestHandler sampleSession (sampleOptions "/x") 10
      (Completion.success { statusCode := 500, body := vStr "\x7bbad" }) =
      Except.error JsError.syntaxError := rfl

/-- C7 (amended): non-auth error passthrough.  (1) When the response
survives the leading-brace reparse prologue and is neither a 200, nor
classified as an authentication failure (401, or 400 without a truthy
`meta`), the handler invokes the callback as `(res.body, res)`, issues
no call, and leaves the session — in particular the retry queue —
unchanged.  (2) When the reparse prologue throws (body is a
leading-brace string that is not valid JSON), the exception propagates
uncaught: no callback is invoked, no token-endpoint call is made, and
the request is not enqueued — see the counterexample. -/
theorem claim_C7_non_auth_passthrough :
    (∀ (s : Session) (o : Options) (cb : Nat) (res res2 : HttpResponse),
      preparse o res = Except.ok res2 →
      classifyAuthFailure res2 = Except.ok false →
      res2.statusCode ≠ 200 →
      apiRequestHandler s o cb (Completion.success res) =
        Except.ok { session := s, newCalls := []
                    invocations := [(cb, CbArg.val res2.body, CbArg.response res2)] }) ∧
    (∀ (s : Session) (o : Options) (cb : Nat) (res : HttpResponse) (e : JsError),
      preparse o res = Except.error e →
      apiRequestHandler s o cb (Completion.success res) = Except.error e) := by
  refine ⟨fun s o cb res res2 hp hcls h200 =>
    apiRequestHandler_non200 s o cb res res2 hp hcls h200, ?_⟩
  intro s o cb res e hp
  rw [apiRequestHandler]
  simp only [hp]

/-- Witness for the amended C7: a concrete 500 with a plain-text body
passes through to the callback, and a concrete 500 with a leading-brace
invalid-JSON body propagates the reparse exception. -/
theorem claim_C7_non_auth_passthrough_witness :
    apiRequestHandler sampleSession (sampleOptions "/x") 4
        (Completion.success { statusCode := 500, body := vStr "Server Error" }) =
      Except.ok { session := sampleSession, newCalls := []
                  invocations := [(4, CbArg.val (vStr "Server Error"),
                    CbArg.response { statusCode := 500, body := vStr "Server Error" })] } ∧
    apiRequestHandler sampleSession (sampleOptions "/x") 6
        (Completion.success { statusCode := 500, body := vStr "\x7boops" }) =
      Except.error JsError.syntaxError :=
  ⟨claim_C7_non_auth_passthrough.1 sampleSession (sampleOptions "/x") 4
     { statusCode := 500, body := vStr "Server Error" }
     { statusCode := 500, body := vStr "Server Error" } rfl rfl (by decide),
   claim_C7_non_auth_passthrough.2 sampleSession (sampleOptions "/x") 6
     { statusCode := 500, body := vStr "\x7boops" } JsError.syntaxError rfl⟩

/-- C8: at-most-once callback invocation.  Along any run of the machine
from a fresh connection, the number of logged invocations of a given
callback never exceeds the number of times the caller dispatched it; a
logical request dispatched once therefore has its callback invoked at
most once across the whole refresh-and-replay cycle. -/
theorem claim_C8_at_most_once_callback (clientId clientSecret : String)
    (version : Option String) (events : List Event) (k : Nat) :
    invocationCount (run (initConfig clientId clientSecret version) events).log k ≤
      dispatchCount events k := by
  have h := run_obligations events (initConfig clientId clientSecret version)
    (machineInv_init clientId clientSecret version) k
  have h2 : invocationCount
      (run (initConfig clientId clientSecret version) events).log k ≤
      obligations (run (initConfig clientId clientSecret version) events) k :=
    le_trans (Nat.le_add_right _ _) (Nat.le_add_right _ _)
  have h0 : obligations (initConfig clientId clientSecret version) k = 0 := rfl
  omega

/-- C9: pre-refresh token state.  (1) A new connection starts with
`accessToken = null`.  (2) A machine step changes `accessToken` only
when it completes a pending token-endpoint call with a 200 response.
(3) A request dispatched while the token is null carries the literal
header value `Bearer null`.  (4) A 401 response is classified as an
authentication failure and enters `refreshAccessToken` without
crashing. -/
theorem claim_C9_pre_refresh_token_state :
    (∀ (clientId clientSecret : String) (version : Option String),
      (PokitDok clientId clientSecret version).accessToken = vNull) ∧
    (∀ (c : Config) (e : Event),
      (step c e).session.accessToken = c.session.accessToken ∨
      (∃ i res cb, e = Event.complete i (Completion.success res) ∧
        c.pending[i]? = some (Call.refresh cb) ∧ res.statusCode = 200)) ∧
    (∀ (s : Session) (o : Options), s.accessToken = vNull →
      (apiRequest s o).authorizationHeader = "Bearer null") ∧
    (∀ (s : Session) (o : Options) (cb : Nat) (res res2 : HttpResponse),
      preparse o res = Except.ok res2 → res.statusCode = 401 →
      apiRequestHandler s o cb (Completion.success res) =
        Except.ok { session := (refreshAccessToken s o cb).1
                    newCalls := (refreshAccessToken s o cb).2
                    invocations := [] }) := by
  refine ⟨fun clientId clientSecret version => rfl, step_accessToken_cases, ?_, ?_⟩
  · intro s o h
    show "Bearer " ++ jsToString s.accessToken = "Bearer null"
    rw [h]
    rfl
  · intro s o cb res res2 hp h401
    have hsc : res2.statusCode = 401 := by
      rw [preparse_statusCode o res res2 hp, h401]
    have hcls : classifyAuthFailure res2 = Except.ok true := by
      rw [classifyAuthFailure, hsc]
      rfl
    exact apiRequestHandler_auth s o cb res res2 hp hcls

/-- Witness for C9 at concrete inputs: a fresh session produces the
`Bearer null` header, and a concrete 401 enters the refresh path. -/
theorem claim_C9_pre_refresh_token_state_witness :
    (apiRequest sampleSession (sampleOptions "/p")).authorizationHeader =
      "Bearer null" ∧
    apiRequestHandler sampleSession (sampleOptions "/p") 3
        (Completion.success { statusCode := 401, body := vStr "Unauthorized" }) =
      Except.ok
        { session := (refreshAccessToken sampleSession (sampleOptions "/p") 3).1
          newCalls := (refreshAccessToken sampleSession (sampleOptions "/p") 3).2
          invocations := [] } :=
  ⟨claim_C9_pre_refresh_token_state.2.2.1 sampleSession (sampleOptions "/p") rfl,
   claim_C9_pre_refresh_token_state.2.2.2 sampleSession (sampleOptions "/p") 3
     { statusCode := 401, body := vStr "Unauthorized" }
     { statusCode := 401, body := vStr "Unauthorized" } rfl rfl⟩


/-- C10: pre-parsed body passthrough.  (1) `JSON.parse` of a plain
object throws (the object coerces to the string `[object Object]`),
modelled by `jsJSONParse` returning `none`.  (2) For a 200 response
with a truthy `options.json` and an object body, the reparse guard is
skipped, the final parse throws and is caught, and the callback
receives the transport-provided object unchanged as
`callback(null, body)`. -/
theorem claim_C10_pre_parsed_body :
    (∀ fields : List (String × JsValue), jsJSONParse (vObj fields) = none) ∧
    (∀ (s : Session) (o : Options) (cb : Nat) (res : HttpResponse)
        (fields : List (String × JsValue)),
      truthy o.json = true → res.statusCode = 200 → res.body = vObj fields →
      apiRequestHandler s o cb (Completion.success res) =
        Except.ok { session := s, newCalls := []
                    invocations := [(cb, CbArg.val vNull,
                      CbArg.val (vObj fields))] }) := by
  refine ⟨jsJSONParse_vObj, ?_⟩
  intro s o cb res fields hjson h200 hbody
  have hp : preparse o res = Except.ok res := by
    rw [preparse, if_neg (by simp [hjson])]
  have hcls : classifyAuthFailure res = Except.ok false :=
    classifyAuthFailure_of_not res (by rw [h200]; decide) (by rw [h200]; decide)
  have h2 := apiRequestHandler_200 s o cb res res hp hcls h200
  rw [h2, hbody]
  simp [jsJSONParse_vObj]

/-- Witness for C10 at concrete inputs. -/
theorem claim_C10_pre_parsed_body_witness :
    truthy c10Options.json = true ∧
    apiRequestHandler sampleSession c10Options 8
        (Completion.success { statusCode := 200, body := vObj [("data", vStr "ok")] }) =
      Except.ok { session := sampleSession, newCalls := []
                  invocations := [(8, CbArg.val vNull,
                    CbArg.val (vObj [("data", vStr "ok")]))] } :=
  ⟨rfl,
   claim_C10_pre_parsed_body.2 sampleSession c10Options 8
     { statusCode := 200, body := vObj [("data", vStr "ok")] }
     [("data", vStr "ok")] rfl rfl rfl⟩

end PokitDokSpec
